import Mathlib

/-!
Verification development for `gh_autoupdater.py`, a single-file
self-updating agent.  The Python source is shallowly embedded below:
pure helpers become Lean functions, the effectful pipeline
(`check_once`, `_apply_update`, `loop`, `main`) becomes a pure function
over an explicit environment of external responses that also returns the
list of externally visible events (logs, network requests, filesystem
writes, process exit).  Standard-library behaviour the script relies on
(`json.loads`, `str.strip`, `str.lower`, `urllib.parse.urlparse`,
`zipfile.extractall` member-path sanitation) is modelled alongside.
-/

/-! ## Python string primitives -/

/-- Python `str.strip()` whitespace set: space, tab, newline, carriage
return, vertical tab, form feed (ASCII fragment). -/
def isPySpace (c : Char) : Bool :=
  c = ' ' || c = '\t' || c = '\n' || c = '\r' || c = '\x0b' || c = '\x0c'

/-- Python `str.strip()`: remove leading and trailing whitespace. -/
def pyStrip (s : String) : String :=
  String.mk (((s.data.dropWhile isPySpace).reverse.dropWhile isPySpace).reverse)

/-- Python `str.lower()` (ASCII fragment; content types and hex digests
in this program are ASCII). -/
def pyLower (s : String) : String :=
  String.mk (s.data.map Char.toLower)

/-- Python `str.startswith(pre)`. -/
def strStartsWith (s pre : String) : Bool :=
  pre.data.isPrefixOf s.data

/-- Containment test over character lists: does `needle` occur as a
contiguous sublist? -/
def containsSubList (needle : List Char) : List Char → Bool
  | [] => needle.isEmpty
  | c :: rest => needle.isPrefixOf (c :: rest) || containsSubList needle rest

/-- Python `needle in hay` on strings. -/
def containsSub (hay needle : String) : Bool :=
  containsSubList needle.data hay.data

/-- Python `s or None` applied to a stripped string: empty becomes
absent. -/
def orNone (s : String) : Option String :=
  if s = "" then none else some s

/-! ## JSON values and `json.loads`

The model of `json.loads` covers objects, arrays, strings with the
single-character escapes, `true` / `false` / `null`, and integer
numerals.  Fractional and exponent numerals and `\u` escapes are
rejected by the model (the manifests this program consumes use none of
them). -/

/-- A decoded JSON value, as produced by Python `json.loads`. -/
inductive JVal where
  | jnull
  | jbool (b : Bool)
  | jint (n : Int)
  | jstr (s : String)
  | jarr (elems : List JVal)
  | jobj (fields : List (String × JVal))

/-- JSON insignificant whitespace skipping. -/
def skipWs (cs : List Char) : List Char :=
  cs.dropWhile (fun c => c = ' ' || c = '\t' || c = '\n' || c = '\r')

/-- Parse the remainder of a JSON string literal (after the opening
quote), handling the one-character escapes.  Returns the decoded text
and the rest of the input. -/
def pJStrChars : Nat → List Char → Option (String × List Char)
  | 0, _ => none
  | _fuel+1, [] => none
  | fuel+1, c :: rest =>
    if c = '"' then some ("", rest)
    else if c = '\\' then
      match rest with
      | [] => none
      | e :: rest2 =>
        let dec : Option Char :=
          if e = '"' then some '"'
          else if e = '\\' then some '\\'
          else if e = '/' then some '/'
          else if e = 'n' then some '\n'
          else if e = 't' then some '\t'
          else if e = 'r' then some '\r'
          else if e = 'b' then some '\x08'
          else if e = 'f' then some '\x0c'
          else none
        match dec with
        | none => none
        | some d =>
          match pJStrChars fuel rest2 with
          | some (s, rem) => some (String.mk (d :: s.data), rem)
          | none => none
    else if c.val < 32 then none
    else
      match pJStrChars fuel rest with
      | some (s, rem) => some (String.mk (c :: s.data), rem)
      | none => none

/-- Decimal digits to a natural number. -/
def digitsToNat (ds : List Char) : Nat :=
  ds.foldl (fun a c => a * 10 + (c.toNat - 48)) 0

/-- Parse a JSON integer numeral.  As in the CPython `json` grammar,
the integer part is a single `0` or starts with a nonzero digit, so
leading-zero numerals are rejected (model restriction: fractional and
exponent forms are rejected as well). -/
def pJNum (cs : List Char) : Option (JVal × List Char) :=
  let neg := match cs with
    | '-' :: _ => true
    | _ => false
  let cs1 := if neg then cs.drop 1 else cs
  let ds := cs1.takeWhile Char.isDigit
  let rest := cs1.dropWhile Char.isDigit
  if ds.isEmpty then none
  else if ds.head? = some '0' && 1 < ds.length then none
  else
    match rest with
    | '.' :: _ => none
    | 'e' :: _ => none
    | 'E' :: _ => none
    | _ =>
      let n : Int := Int.ofNat (digitsToNat ds)
      some (JVal.jint (if neg then -n else n), rest)

/-- Parsing mode for the fueled JSON parser: a single value, object
members, or array elements. -/
inductive PMode where
  | val
  | members
  | elems

/-- Result of one fueled-parser step. -/
inductive PRes where
  | v (value : JVal)
  | ms (fields : List (String × JVal))
  | es (elems : List JVal)

/-- Fueled JSON parser.  Fuel decreases on every recursive call, so the
definition is structural and kernel-reducible. -/
def pJ : Nat → PMode → List Char → Option (PRes × List Char)
  | 0, _, _ => none
  | fuel+1, PMode.val, cs =>
    match skipWs cs with
    | [] => none
    | c :: rest =>
      if c = '\x7b' then
        match skipWs rest with
        | '\x7d' :: r2 => some (PRes.v (JVal.jobj []), r2)
        | cs2 =>
          match pJ fuel PMode.members cs2 with
          | some (PRes.ms fs, r2) => some (PRes.v (JVal.jobj fs), r2)
          | _ => none
      else if c = '[' then
        match skipWs rest with
        | ']' :: r2 => some (PRes.v (JVal.jarr []), r2)
        | cs2 =>
          match pJ fuel PMode.elems cs2 with
          | some (PRes.es xs, r2) => some (PRes.v (JVal.jarr xs), r2)
          | _ => none
      else if c = '"' then
        match pJStrChars (fuel + 1) rest with
        | some (s, r2) => some (PRes.v (JVal.jstr s), r2)
        | none => none
      else if c = '-' || c.isDigit then
        match pJNum (c :: rest) with
        | some (v, r2) => some (PRes.v v, r2)
        | none => none
      else if ['t', 'r', 'u', 'e'].isPrefixOf (c :: rest) then
        some (PRes.v (JVal.jbool true), rest.drop 3)
      else if ['f', 'a', 'l', 's', 'e'].isPrefixOf (c :: rest) then
        some (PRes.v (JVal.jbool false), rest.drop 4)
      else if ['n', 'u', 'l', 'l'].isPrefixOf (c :: rest) then
        some (PRes.v JVal.jnull, rest.drop 3)
      else none
  | fuel+1, PMode.members, cs =>
    match skipWs cs with
    | '"' :: rest =>
      match pJStrChars (fuel + 1) rest with
      | some (key, r2) =>
        (match skipWs r2 with
         | ':' :: r3 =>
           match pJ fuel PMode.val r3 with
           | some (PRes.v v, r4) =>
             (match skipWs r4 with
              | ',' :: r5 =>
                match pJ fuel PMode.members r5 with
                | some (PRes.ms fs, r6) => some (PRes.ms ((key, v) :: fs), r6)
                | _ => none
              | '\x7d' :: r5 => some (PRes.ms [(key, v)], r5)
              | _ => none)
           | _ => none
         | _ => none)
      | none => none
    | _ => none
  | fuel+1, PMode.elems, cs =>
    match pJ fuel PMode.val cs with
    | some (PRes.v v, r2) =>
      (match skipWs r2 with
       | ',' :: r3 =>
         match pJ fuel PMode.elems r3 with
         | some (PRes.es xs, r4) => some (PRes.es (v :: xs), r4)
         | _ => none
       | ']' :: r3 => some (PRes.es [v], r3)
       | _ => none)
    | _ => none

/-- Python `json.loads`: parse one JSON document, rejecting trailing
data. -/
def json_loads (s : String) : Except String JVal :=
  match pJ (2 * s.data.length + 2) PMode.val s.data with
  | some (PRes.v v, rest) =>
    if (skipWs rest).isEmpty then Except.ok v else Except.error "Extra data"
  | _ => Except.error "json.decoder.JSONDecodeError"

/-! ## Python `str()` of decoded JSON values -/

/-- Escape the body of a Python string repr with the given quote
character (printable fragment: backslash, quote, newline, carriage
return, tab). -/
def pyEscape (quote : Char) (s : String) : String :=
  String.mk (s.data.foldr (fun c acc =>
    if c = '\\' then '\\' :: '\\' :: acc
    else if c = quote then '\\' :: quote :: acc
    else if c = '\n' then '\\' :: 'n' :: acc
    else if c = '\r' then '\\' :: 'r' :: acc
    else if c = '\t' then '\\' :: 't' :: acc
    else c :: acc) [])

/-- Python `repr` of a string: single quotes unless the text contains a
single quote and no double quote. -/
def pyStrRepr (s : String) : String :=
  if s.data.contains '\'' && !(s.data.contains '"') then
    "\"" ++ pyEscape '"' s ++ "\""
  else
    "'" ++ pyEscape '\'' s ++ "'"

/-- Fueled Python `repr` of a decoded JSON value. -/
def pyReprF : Nat → JVal → String
  | 0, _ => ""
  | _+1, JVal.jnull => "None"
  | _+1, JVal.jbool true => "True"
  | _+1, JVal.jbool false => "False"
  | _+1, JVal.jint n => toString n
  | _+1, JVal.jstr s => pyStrRepr s
  | f+1, JVal.jarr xs => "[" ++ ", ".intercalate (xs.map (pyReprF f)) ++ "]"
  | f+1, JVal.jobj fs =>
    "\x7b" ++ ", ".intercalate
      (fs.map (fun kv => pyStrRepr kv.1 ++ ": " ++ pyReprF f kv.2)) ++ "\x7d"

/-- Structural size of a decoded JSON value, used as rendering fuel for
container values. -/
def jvalSize : JVal → Nat
  | JVal.jnull => 1
  | JVal.jbool _ => 1
  | JVal.jint _ => 1
  | JVal.jstr _ => 1
  | JVal.jarr xs => 1 + (xs.attach.map (fun x => jvalSize x.1)).foldr (· + ·) 0
  | JVal.jobj fs => 1 + (fs.attach.map (fun kv => jvalSize kv.1.2)).foldr (· + ·) 0
decreasing_by
· have h := List.sizeOf_lt_of_mem x.2
  simp only [JVal.jarr.sizeOf_spec]
  omega
· rcases kv with ⟨⟨a, b⟩, hm⟩
  have h := List.sizeOf_lt_of_mem hm
  simp only [Prod.mk.sizeOf_spec] at h
  simp only [JVal.jobj.sizeOf_spec]
  omega

/-- Python `str()` of a decoded JSON value: the text itself for strings,
`repr` otherwise (`None`, `True`, `False`, decimal integers,
containers). -/
def pyStr : JVal → String
  | JVal.jnull => "None"
  | JVal.jbool true => "True"
  | JVal.jbool false => "False"
  | JVal.jint n => toString n
  | JVal.jstr s => s
  | JVal.jarr xs => pyReprF (jvalSize (JVal.jarr xs)) (JVal.jarr xs)
  | JVal.jobj fs => pyReprF (jvalSize (JVal.jobj fs)) (JVal.jobj fs)

/-- Python `dict.get` on an object decoded from JSON source: duplicate
keys are resolved to the last occurrence, as in `dict` construction. -/
def dictGet (fields : List (String × JVal)) (k : String) : Option JVal :=
  ((fields.filter (fun kv => kv.1 == k)).getLast?).map (fun kv => kv.2)

/-! ## Manifest parsing (`_parse_latest_payload`, source lines 56-71) -/

/-- Python `str(data.get(k, "")).strip()` for a decoded manifest
object. -/
def fieldAsStr (fields : List (String × JVal)) (k : String) : String :=
  pyStrip (pyStr ((dictGet fields k).getD (JVal.jstr "")))

/-- Embedding of `_parse_latest_payload(body, content_type, latest_url)`:
returns `(remote_version, download_url, sha256)`, or the exception the
Python code would raise (`json.loads` failure, or `AttributeError` when
the decoded document is not an object and therefore has no `.get`). -/
def _parse_latest_payload (body content_type latest_url : String) :
    Except String (String × Option String × Option String) :=
  let ct := pyLower content_type
  if containsSub ct "application/json" || strStartsWith (pyStrip body) "\x7b" then
    match json_loads body with
    | Except.error e => Except.error e
    | Except.ok (JVal.jobj fields) =>
      Except.ok (fieldAsStr fields "version",
                 orNone (fieldAsStr fields "url"),
                 orNone (fieldAsStr fields "sha256"))
    | Except.ok _ => Except.error "AttributeError"
  else
    Except.ok (pyStrip body, none, none)

/-! ## Fallback URL (`_default_zip_url_from_latest`, source lines 73-76) -/

/-- Split off the scheme at the first occurrence of `://`. -/
def splitScheme : List Char → Option (List Char × List Char)
  | [] => none
  | c :: rest =>
    if [':', '/', '/'].isPrefixOf (c :: rest) then some ([], (c :: rest).drop 3)
    else
      match splitScheme rest with
      | some (pre, post) => some (c :: pre, post)
      | none => none

/-- Python `s.split("/")` on character lists. -/
def splitSlash : List Char → List (List Char)
  | [] => [[]]
  | c :: rest =>
    let r := splitSlash rest
    if c = '/' then [] :: r
    else
      match r with
      | [] => [[c]]
      | seg :: segs => (c :: seg) :: segs

/-- Python `"/".join(parts)` on character lists. -/
def joinSlash : List (List Char) → List Char
  | [] => []
  | [seg] => seg
  | seg :: rest => seg ++ '/' :: joinSlash rest

/-- Relevant components of `urllib.parse.urlparse` for absolute URLs
without query or fragment: scheme (lowercased), network location, and
path. -/
structure UrlParts where
  scheme : String
  netloc : String
  path : String

/-- Model of `urllib.parse.urlparse` restricted to the
`scheme://host/path` shapes this program receives. -/
def urlparse (url : String) : UrlParts :=
  match splitScheme url.data with
  | none => UrlParts.mk "" "" url
  | some (s, r) =>
    UrlParts.mk (pyLower (String.mk s))
      (String.mk (r.takeWhile (fun c => c ≠ '/')))
      (String.mk (r.dropWhile (fun c => c ≠ '/')))

/-- Embedding of `_default_zip_url_from_latest(latest_url,
remote_version)`: host and all but the last path segment of the manifest
URL, then `/releases/fisher_v<version>.zip`, always under `https`. -/
def _default_zip_url_from_latest (latest_url remote_version : String) : String :=
  let parsed := urlparse latest_url
  let base := String.mk (joinSlash ((splitSlash parsed.path.data).dropLast))
  "https://" ++ parsed.netloc ++ base ++ "/releases/fisher_v" ++
    remote_version ++ ".zip"

/-! ## Archive member-path sanitation (CPython `zipfile.extractall`)

`_apply_update` extracts with `zipfile.ZipFile.extractall`, whose
`_extract_member` replaces both separators, drops the drive prefix, and
removes the path components `""`, `"."` and `".."` before joining the
member name onto the extraction directory.  The model below covers
member names without drive or UNC prefixes. -/

/-- Split an archive member name on both separators, `/` and `\`. -/
def splitSeps (name : String) : List (List Char) :=
  (splitSlash (name.data.map (fun c => if c = '\\' then '/' else c)))

/-- CPython `zipfile` member-name sanitation: drop empty, `.` and `..`
components. -/
def sanitizeParts (name : String) : List String :=
  ((splitSeps name).map String.mk).filter
    (fun p => p ≠ "" && p ≠ "." && p ≠ "..")

/-- Normalise a component list by resolving `.` , `..` and empty
components, the way the operating system resolves the final path. -/
def resolveParts (ps : List String) : List String :=
  ps.foldl (fun acc p =>
    if p = ".." then acc.dropLast
    else if p = "." || p = "" then acc
    else acc ++ [p]) []

/-- Fixed name standing for the fresh directory `tempfile.mkdtemp`
returns for one update attempt. -/
def tmpdir : String := "gh_update_tmp"

/-- Path that `extractall` writes a member with the given name to,
inside `tmpdir\extracted`. -/
def extractTargetPath (name : String) : String :=
  String.intercalate "\\" (tmpdir :: "extracted" :: sanitizeParts name)

/-! ## Effect model

External actions of one process run, in order of occurrence. -/

/-- Externally visible events of the updater process. -/
inductive Event where
  | log (msg : String)
  | httpGet (url : String)
  | mkdtempDir (dir : String)
  | download (url : String) (dst : String)
  | hashCheck (expected got : String)
  | makedirs (dir : String)
  | writeFile (path : String)
  | startFile (path : String)
  | exitProcess (code : Int)
  | sleep (seconds : Int)
deriving DecidableEq

/-- How one invocation of `check_once` ends. -/
inductive CycleOutcome where
  | missingRequests
  | noVersion
  | upToDate
  | verifyFailed (expected got : String)
  | deployed
  | caught (err : String)
deriving DecidableEq

/-- Response to a successful HTTP GET: body text and the `content-type`
header (empty when the header is missing, as `headers.get(...,"")`). -/
structure HttpResp where
  text : String
  contentType : String

/-- Environment of external behaviour for one check cycle: whether
`requests` imports, the manifest GET, the artifact download (returning
the downloaded bytes, represented by an abstract token), the SHA-256
digest of a downloaded artifact, and the archive member list obtained by
opening the artifact as a zip file.  `Except.error` models the exception
the corresponding Python call would raise. -/
structure Env where
  requests_available : Bool
  http_get : String → Except String HttpResp
  download : String → Except String String
  sha256_file : String → String
  zip_entries : String → Except String (List String)

/-- Configuration handed to `check_once` / `loop`: the command-line
surface after `main` resolved the target directory. -/
structure Config where
  current : String
  latest_url : String
  target_dir : String
  restart_cmd : Option String
  insecure : Bool

/-! ## `_apply_update` (source lines 100-124) -/

/-- Extraction, helper-script generation and process handoff: the part
of `_apply_update` after integrity verification (source lines 113-124).
`prevEvents` are the events already performed by the enclosing call. -/
def _apply_update_deploy (env : Env) (art target_dir : String)
    (restart_cmd : Option String) (prevEvents : List Event) :
    Except String CycleOutcome × List Event :=
  let extract_dir := tmpdir ++ "\\extracted"
  let ev2 := prevEvents ++ [Event.log "[UPDATE] 解压中...", Event.makedirs extract_dir]
  match env.zip_entries art with
  | Except.error e => (Except.error e, ev2)
  | Except.ok entries =>
    let writes := entries.map (fun n => Event.writeFile (extractTargetPath n))
    let bat_path := tmpdir ++ "\\update.bat"
    (Except.ok CycleOutcome.deployed,
     ev2 ++ writes ++
       [Event.log "[UPDATE] 生成更新脚本并执行...",
        Event.writeFile bat_path,
        Event.startFile bat_path,
        Event.exitProcess 0])

/-- Embedding of `_apply_update(download_url, target_dir, expect_sha256,
restart_cmd)`: download into a fresh staging directory, verify the
SHA-256 digest when an expected digest is present, then extract, write
and launch the helper script, and terminate the process.  The returned
events record everything the call did; an `Except.error` result is an
exception propagating to the caller. -/
def _apply_update (env : Env) (download_url target_dir : String)
    (expect_sha256 restart_cmd : Option String) :
    Except String CycleOutcome × List Event :=
  let zip_path := tmpdir ++ "\\update.zip"
  let ev0 := [Event.log ("[UPDATE] 下载更新包：" ++ download_url),
              Event.mkdtempDir tmpdir]
  match env.download download_url with
  | Except.error e => (Except.error e, ev0 ++ [Event.download download_url zip_path])
  | Except.ok art =>
    let ev1 := ev0 ++ [Event.download download_url zip_path]
    match expect_sha256 with
    | some expect =>
      let got := env.sha256_file art
      if pyLower got ≠ pyLower expect then
        (Except.ok (CycleOutcome.verifyFailed expect got),
         ev1 ++ [Event.hashCheck expect got,
                 Event.log ("[UPDATE] 校验失败：期望 " ++ expect ++ "，实际 " ++ got),
                 Event.log "[UPDATE] 已取消更新。"])
      else
        _apply_update_deploy env art target_dir restart_cmd
          (ev1 ++ [Event.hashCheck expect got])
    | none => _apply_update_deploy env art target_dir restart_cmd ev1

/-! ## `check_once` (source lines 126-148) -/

/-- Download URL actually used: the manifest-provided one, or the
fallback derived from the manifest URL (source lines 139-140). -/
def resolved_download_url (latest_url remote_version : String)
    (download_url : Option String) : String :=
  match download_url with
  | none => _default_zip_url_from_latest latest_url remote_version
  | some u => u

/-- Body of the `try` block of `check_once` (source lines 129-146): an
`Except.error` result is an exception reaching the `except` clause. -/
def check_once_body (env : Env) (cfg : Config) :
    Except String CycleOutcome × List Event :=
  let ev0 := [Event.httpGet cfg.latest_url]
  match env.http_get cfg.latest_url with
  | Except.error e => (Except.error e, ev0)
  | Except.ok r =>
    match _parse_latest_payload r.text r.contentType cfg.latest_url with
    | Except.error e => (Except.error e, ev0)
    | Except.ok (remote_version, download_url0, sha0) =>
      if remote_version = "" then
        (Except.ok CycleOutcome.noVersion,
         ev0 ++ [Event.log "[UPDATE] latest.json/version.txt 无版本号，忽略。"])
      else if remote_version = cfg.current then
        (Except.ok CycleOutcome.upToDate,
         ev0 ++ [Event.log ("[UPDATE] 已是最新：" ++ cfg.current)])
      else
        let download_url := resolved_download_url cfg.latest_url remote_version download_url0
        let sha256 := if cfg.insecure then none else sha0
        let ev1 := ev0 ++ [Event.log ("[UPDATE] 发现新版本：" ++ remote_version ++
                                      "（当前 " ++ cfg.current ++ "）")]
        let r2 := _apply_update env download_url cfg.target_dir sha256 cfg.restart_cmd
        (r2.1, ev1 ++ r2.2)

/-- Embedding of `check_once`: the dependency check, then the `try`
block, with every exception caught and logged at the cycle boundary. -/
def check_once (env : Env) (cfg : Config) : CycleOutcome × List Event :=
  if env.requests_available then
    match check_once_body env cfg with
    | (Except.ok out, evs) => (out, evs)
    | (Except.error e, evs) =>
      (CycleOutcome.caught e, evs ++ [Event.log ("[UPDATE] 检测失败： " ++ e)])
  else
    (CycleOutcome.missingRequests,
     [Event.log "[UPDATE] 缺少依赖：requests。请先：pip install requests"])

/-! ## `loop` (source lines 150-153) and `main` (source lines 155-176) -/

/-- Seconds slept between cycles: `time.sleep(max(5, int(interval)))`. -/
def loopPause (interval : Int) : Int := max 5 interval

/-- Whether a cycle outcome terminates the process (`os._exit(0)` inside
`_apply_update`). -/
def cycleExits (out : CycleOutcome) : Bool := out = CycleOutcome.deployed

/-- The polling process is still alive before cycle `n`: no earlier
cycle deployed (per-cycle external behaviour is given by `envs`). -/
def loopAlive (envs : Nat → Env) (cfg : Config) (n : Nat) : Bool :=
  (List.range n).all (fun i => !cycleExits (check_once (envs i) cfg).1)

/-- Outcome of cycle `n` of `loop`, or `none` when the process already
terminated in an earlier cycle. -/
def loop_cycle (envs : Nat → Env) (cfg : Config) (n : Nat) : Option CycleOutcome :=
  if loopAlive envs cfg n then some (check_once (envs n) cfg).1 else none

/-- Events of the first `n` cycles of `loop`: each cycle runs
`check_once` and then sleeps for `loopPause interval`, unless the cycle
deployed and the process is gone. -/
def loop_events (envs : Nat → Env) (cfg : Config) (interval : Int) : Nat → List Event
  | 0 => []
  | n+1 =>
    loop_events envs cfg interval n ++
      (if loopAlive envs cfg n then
        let r := check_once (envs n) cfg
        r.2 ++ (if cycleExits r.1 then [] else [Event.sleep (loopPause interval)])
      else [])

/-- Operating-system services used by `main` before the pipeline runs. -/
structure OsEnv where
  abspath : String → String
  isdir : String → Bool

/-- Command-line arguments as parsed by `argparse`. -/
structure Args where
  current : String
  latest_url : String
  target_dir : String
  restart : Option String
  interval : Int
  once : Bool
  insecure : Bool

/-- Embedding of `main`: resolve the target directory to an absolute
path, exit with status 1 when it is not a directory, otherwise run one
cycle (`--once`) or the polling loop (`loopFuel` bounds the number of
observed cycles).  Result: the exit status when the process exited, and
the events performed. -/
def main_run (os : OsEnv) (envs : Nat → Env) (args : Args) (loopFuel : Nat) :
    Option Int × List Event :=
  let td := os.abspath args.target_dir
  if !os.isdir td then
    (some 1, [Event.log ("[UPDATE] 目标目录不存在：" ++ td)])
  else
    let cfg := Config.mk args.current args.latest_url td args.restart args.insecure
    if args.once then
      let r := check_once (envs 0) cfg
      (if cycleExits r.1 then some 0 else none, r.2)
    else
      (none, loop_events envs cfg args.interval loopFuel)

/-! ## Event classification used by the stated properties -/

/-- Network fetch events. -/
def isFetchEvent : Event → Bool
  | Event.httpGet _ => true
  | _ => false

/-- Process-termination events. -/
def isExitEvent : Event → Bool
  | Event.exitProcess _ => true
  | _ => false

/-- Digest-comparison events. -/
def isHashCheckEvent : Event → Bool
  | Event.hashCheck _ _ => true
  | _ => false

/-- Sleep events of the polling loop. -/
def isSleepEvent : Event → Bool
  | Event.sleep _ => true
  | _ => false

/-- Deployment actions past integrity verification: extraction-directory
creation, file writes, helper-script launch, process handoff. -/
def isDeployEvent : Event → Bool
  | Event.makedirs _ => true
  | Event.writeFile _ => true
  | Event.startFile _ => true
  | Event.exitProcess _ => true
  | _ => false

/-- Events with no filesystem or process effect: log lines, the manifest
fetch itself, and loop sleeps. -/
def isPureEvent : Event → Bool
  | Event.log _ => true
  | Event.httpGet _ => true
  | Event.sleep _ => true
  | _ => false

/-- Whether an outcome is the integrity-verification abort. -/
def isVerifyFailedOutcome : CycleOutcome → Bool
  | CycleOutcome.verifyFailed _ _ => true
  | _ => false

/-! ## Concrete fixtures used to instantiate the proved properties -/

/-- Environment whose manifest advertises version `2.0.0` with a
download URL and expected digest `aa`, while the downloaded artifact
hashes to `bb` (a mismatch); the artifact lists one member. -/
def envMismatch : Env :=
  Env.mk true
    (fun _ => Except.ok (HttpResp.mk
      "\x7b\"version\":\"2.0.0\",\"url\":\"https://h/a.zip\",\"sha256\":\"aa\"\x7d"
      "application/json"))
    (fun _ => Except.ok "artifact1")
    (fun _ => "bb")
    (fun _ => Except.ok ["app.py"])

/-- Environment identical to `envMismatch` except that the artifact
hashes to `AA`, matching the expected digest `aa` case-insensitively. -/
def envMatch : Env :=
  Env.mk true
    (fun _ => Except.ok (HttpResp.mk
      "\x7b\"version\":\"2.0.0\",\"url\":\"https://h/a.zip\",\"sha256\":\"aa\"\x7d"
      "application/json"))
    (fun _ => Except.ok "artifact1")
    (fun _ => "AA")
    (fun _ => Except.ok ["app.py"])

/-- Environment whose manifest is a bare-text version file `0.9.0`,
lexically older than the fixture's current version. -/
def envPlainOld : Env :=
  Env.mk true
    (fun _ => Except.ok (HttpResp.mk "0.9.0\n" "text/plain"))
    (fun _ => Except.ok "artifact2")
    (fun _ => "cc")
    (fun _ => Except.ok ["app.py"])

/-- Environment whose manifest is a bare-text version file equal to the
fixture's current version. -/
def envPlainSame : Env :=
  Env.mk true
    (fun _ => Except.ok (HttpResp.mk "1.0.0" "text/plain"))
    (fun _ => Except.ok "artifact2")
    (fun _ => "cc")
    (fun _ => Except.ok ["app.py"])

/-- Environment whose manifest fetch raises. -/
def envBoom : Env :=
  Env.mk true
    (fun _ => Except.error "boom")
    (fun _ => Except.error "boom")
    (fun _ => "")
    (fun _ => Except.error "boom")

/-- Environment whose artifact contains a directory-traversal member
name. -/
def envTraversal : Env :=
  Env.mk true
    (fun _ => Except.ok (HttpResp.mk "2.0.0" "text/plain"))
    (fun _ => Except.ok "artifact3")
    (fun _ => "dd")
    (fun _ => Except.ok ["../evil.txt"])

/-- Configuration with verification enabled. -/
def cfgSecure : Config :=
  Config.mk "1.0.0" "https://h/latest.json" "D:\\target" none false

/-- Configuration with `--insecure` (verification skipped). -/
def cfgInsecure : Config :=
  Config.mk "1.0.0" "https://h/latest.json" "D:\\target" none true

/-- Per-cycle environment assignment that always fails the manifest
fetch. -/
def envsBoom : Nat → Env := fun _ => envBoom

/-- Operating-system services fixture whose resolved target directory
does not exist. -/
def osMissing : OsEnv :=
  OsEnv.mk (fun s => "C:\\abs\\" ++ s) (fun _ => false)

/-- Argument fixture for the startup check. -/
def argsFixture : Args :=
  Args.mk "1.0.0" "https://h/latest.json" "app" none 60 true false

/-! ## Structural lemmas about the pipeline traces -/

/-- An `orNone` result is absent exactly when the stripped coercion is
empty. -/
theorem orNone_eq_none (s : String) : orNone s = none ↔ s = "" := by
  unfold orNone
  split <;> simp_all


/-- Every event produced by extracting archive members is a file
write. -/
theorem all_map_writes (entries : List String) (p : Event → Bool)
    (hp : ∀ n, p (Event.writeFile (extractTargetPath n)) = true) :
    ((entries.map (fun n => Event.writeFile (extractTargetPath n))).all p) = true := by
  refine List.all_eq_true.mpr ?_
  intro e he
  obtain ⟨n, _, rfl⟩ := List.mem_map.mp he
  exact hp n

/-- The `_apply_update` trace never fetches over HTTP and never
sleeps. -/
theorem apply_update_events (env : Env) (u td : String) (sha rc : Option String) :
    (((_apply_update env u td sha rc).2.all
      (fun e => !isFetchEvent e && !isSleepEvent e))) = true := by
  unfold _apply_update
  cases hd : env.download u with
  | error e => rfl
  | ok art =>
    have hdep : ∀ prev : List Event,
        ((prev.all (fun e => !isFetchEvent e && !isSleepEvent e))) = true →
        (((_apply_update_deploy env art td rc prev).2.all
          (fun e => !isFetchEvent e && !isSleepEvent e))) = true := by
      intro prev hprev
      unfold _apply_update_deploy
      cases hz : env.zip_entries art with
      | error e =>
        simp only [List.all_append, hprev, Bool.true_and]
        rfl
      | ok entries =>
        simp only [List.all_append, hprev, Bool.true_and, Bool.and_eq_true]
        exact ⟨⟨rfl, all_map_writes entries _ (fun _ => rfl)⟩, rfl⟩
    cases sha with
    | none =>
      exact hdep _ rfl
    | some expect =>
      by_cases hmm : pyLower (env.sha256_file art) ≠ pyLower expect
      · simp only [if_pos hmm]
        rfl
      · simp only [if_neg hmm]
        exact hdep _ rfl

/-- Branch equation: the zip file fails to open, so the exception
propagates after the extraction-directory creation. -/
theorem apply_deploy_eq_error (env : Env) (art td : String) (rc : Option String)
    (prev : List Event) (e : String) (hz : env.zip_entries art = Except.error e) :
    _apply_update_deploy env art td rc prev =
      (Except.error e,
       prev ++ [Event.log "[UPDATE] 解压中...",
                Event.makedirs (tmpdir ++ "\\extracted")]) := by
  unfold _apply_update_deploy
  rw [hz]

/-- Branch equation: extraction succeeds, the helper script is written
and launched, and the process exits. -/
theorem apply_deploy_eq_ok (env : Env) (art td : String) (rc : Option String)
    (prev : List Event) (entries : List String)
    (hz : env.zip_entries art = Except.ok entries) :
    _apply_update_deploy env art td rc prev =
      (Except.ok CycleOutcome.deployed,
       prev ++ [Event.log "[UPDATE] 解压中...",
                Event.makedirs (tmpdir ++ "\\extracted")] ++
         entries.map (fun n => Event.writeFile (extractTargetPath n)) ++
         [Event.log "[UPDATE] 生成更新脚本并执行...",
          Event.writeFile (tmpdir ++ "\\update.bat"),
          Event.startFile (tmpdir ++ "\\update.bat"),
          Event.exitProcess 0]) := by
  unfold _apply_update_deploy
  rw [hz]

/-- Branch equation: the artifact download raises. -/
theorem apply_update_eq_download_error (env : Env) (u td : String)
    (sha rc : Option String) (e : String) (hd : env.download u = Except.error e) :
    _apply_update env u td sha rc =
      (Except.error e,
       [Event.log ("[UPDATE] 下载更新包：" ++ u), Event.mkdtempDir tmpdir,
        Event.download u (tmpdir ++ "\\update.zip")]) := by
  unfold _apply_update
  rw [hd]
  rfl

/-- Branch equation: no expected digest, so verification is skipped
entirely and extraction follows the download directly. -/
theorem apply_update_eq_no_sha (env : Env) (u td : String) (rc : Option String)
    (art : String) (hd : env.download u = Except.ok art) :
    _apply_update env u td none rc =
      _apply_update_deploy env art td rc
        [Event.log ("[UPDATE] 下载更新包：" ++ u), Event.mkdtempDir tmpdir,
         Event.download u (tmpdir ++ "\\update.zip")] := by
  unfold _apply_update
  rw [hd]
  rfl

/-- Branch equation: the computed digest mismatches the expected one, so
the update is cancelled after the comparison. -/
theorem apply_update_eq_mismatch (env : Env) (u td : String) (rc : Option String)
    (art expect : String) (hd : env.download u = Except.ok art)
    (hmm : pyLower (env.sha256_file art) ≠ pyLower expect) :
    _apply_update env u td (some expect) rc =
      (Except.ok (CycleOutcome.verifyFailed expect (env.sha256_file art)),
       [Event.log ("[UPDATE] 下载更新包：" ++ u), Event.mkdtempDir tmpdir,
        Event.download u (tmpdir ++ "\\update.zip"),
        Event.hashCheck expect (env.sha256_file art),
        Event.log ("[UPDATE] 校验失败：期望 " ++ expect ++ "，实际 " ++
          env.sha256_file art),
        Event.log "[UPDATE] 已取消更新。"]) := by
  unfold _apply_update
  rw [hd]
  simp only [if_pos hmm]
  rfl

/-- Branch equation: the computed digest matches the expected one
case-insensitively, so extraction follows the comparison. -/
theorem apply_update_eq_match (env : Env) (u td : String) (rc : Option String)
    (art expect : String) (hd : env.download u = Except.ok art)
    (hmm : pyLower (env.sha256_file art) = pyLower expect) :
    _apply_update env u td (some expect) rc =
      _apply_update_deploy env art td rc
        [Event.log ("[UPDATE] 下载更新包：" ++ u), Event.mkdtempDir tmpdir,
         Event.download u (tmpdir ++ "\\update.zip"),
         Event.hashCheck expect (env.sha256_file art)] := by
  unfold _apply_update
  rw [hd]
  simp only [if_neg (not_not_intro hmm)]
  rfl

/-- Successful `_apply_update` results are deployment or the
verification abort; never anything else. -/
theorem apply_update_ok_outcomes (env : Env) (u td : String)
    (sha rc : Option String) (out : CycleOutcome)
    (h : (_apply_update env u td sha rc).1 = Except.ok out) :
    out = CycleOutcome.deployed ∨ isVerifyFailedOutcome out = true := by
  have hdep : ∀ art prev,
      (_apply_update_deploy env art td rc prev).1 = Except.ok out →
      out = CycleOutcome.deployed ∨ isVerifyFailedOutcome out = true := by
    intro art prev hh
    cases hz : env.zip_entries art with
    | error e =>
      rw [apply_deploy_eq_error env art td rc prev e hz] at hh
      exact Except.noConfusion hh
    | ok entries =>
      rw [apply_deploy_eq_ok env art td rc prev entries hz] at hh
      simp only [Except.ok.injEq] at hh
      exact Or.inl hh.symm
  cases hd : env.download u with
  | error e =>
    rw [apply_update_eq_download_error env u td sha rc e hd] at h
    exact Except.noConfusion h
  | ok art =>
    cases sha with
    | none =>
      rw [apply_update_eq_no_sha env u td rc art hd] at h
      exact hdep art _ h
    | some expect =>
      by_cases hmm : pyLower (env.sha256_file art) = pyLower expect
      · rw [apply_update_eq_match env u td rc art expect hd hmm] at h
        exact hdep art _ h
      · rw [apply_update_eq_mismatch env u td rc art expect hd hmm] at h
        simp only [Except.ok.injEq] at h
        right
        rw [← h]
        rfl

/-- When `_apply_update` raises, the process has not terminated: its
trace contains no exit event. -/
theorem apply_update_error_no_exit (env : Env) (u td : String)
    (sha rc : Option String) (e : String)
    (h : (_apply_update env u td sha rc).1 = Except.error e) :
    (((_apply_update env u td sha rc).2.all (fun ev => !isExitEvent ev))) = true := by
  have hdep : ∀ art prev, (((prev.all (fun ev => !isExitEvent ev))) = true) →
      (((_apply_update_deploy env art td rc prev).2.all
        (fun ev => !isExitEvent ev))) = true ∨
      (_apply_update_deploy env art td rc prev).1 ≠ Except.error e := by
    intro art prev hprev
    cases hz : env.zip_entries art with
    | error e2 =>
      left
      rw [apply_deploy_eq_error env art td rc prev e2 hz]
      simp only [List.all_append, hprev, Bool.true_and]
      rfl
    | ok entries =>
      right
      rw [apply_deploy_eq_ok env art td rc prev entries hz]
      exact fun hh => Except.noConfusion hh
  cases hd : env.download u with
  | error e2 =>
    rw [apply_update_eq_download_error env u td sha rc e2 hd]
    rfl
  | ok art =>
    cases sha with
    | none =>
      rw [apply_update_eq_no_sha env u td rc art hd] at h ⊢
      rcases hdep art
          [Event.log ("[UPDATE] 下载更新包：" ++ u), Event.mkdtempDir tmpdir,
           Event.download u (tmpdir ++ "\\update.zip")] (by rfl) with hok | hne
      · exact hok
      · exact absurd h hne
    | some expect =>
      by_cases hmm : pyLower (env.sha256_file art) = pyLower expect
      · rw [apply_update_eq_match env u td rc art expect hd hmm] at h ⊢
        rcases hdep art
            [Event.log ("[UPDATE] 下载更新包：" ++ u), Event.mkdtempDir tmpdir,
             Event.download u (tmpdir ++ "\\update.zip"),
             Event.hashCheck expect (env.sha256_file art)] (by rfl) with hok | hne
        · exact hok
        · exact absurd h hne
      · rw [apply_update_eq_mismatch env u td rc art expect hd hmm] at h
        exact Except.noConfusion h

/-- Branch equation: the manifest fetch raises, so the cycle body
raises. -/
theorem body_eq_http_error (env : Env) (cfg : Config) (e : String)
    (hg : env.http_get cfg.latest_url = Except.error e) :
    check_once_body env cfg = (Except.error e, [Event.httpGet cfg.latest_url]) := by
  simp only [check_once_body, hg]

/-- Branch equation: the manifest body fails to parse, so the cycle body
raises. -/
theorem body_eq_parse_error (env : Env) (cfg : Config) (r : HttpResp) (e : String)
    (hg : env.http_get cfg.latest_url = Except.ok r)
    (hp : _parse_latest_payload r.text r.contentType cfg.latest_url = Except.error e) :
    check_once_body env cfg = (Except.error e, [Event.httpGet cfg.latest_url]) := by
  simp only [check_once_body, hg, hp]

/-- Branch equation: the manifest has no version, so the cycle returns
without further effects. -/
theorem body_eq_no_version (env : Env) (cfg : Config) (r : HttpResp)
    (u s : Option String)
    (hg : env.http_get cfg.latest_url = Except.ok r)
    (hp : _parse_latest_payload r.text r.contentType cfg.latest_url =
      Except.ok ("", u, s)) :
    check_once_body env cfg =
      (Except.ok CycleOutcome.noVersion,
       [Event.httpGet cfg.latest_url,
        Event.log "[UPDATE] latest.json/version.txt 无版本号，忽略。"]) := by
  simp only [check_once_body, hg, hp, if_pos rfl]
  rfl

/-- Branch equation: the remote version equals the current one, so the
cycle returns without further effects. -/
theorem body_eq_up_to_date (env : Env) (cfg : Config) (r : HttpResp)
    (v : String) (u s : Option String)
    (hg : env.http_get cfg.latest_url = Except.ok r)
    (hp : _parse_latest_payload r.text r.contentType cfg.latest_url =
      Except.ok (v, u, s))
    (hv : v ≠ "") (hc : v = cfg.current) :
    check_once_body env cfg =
      (Except.ok CycleOutcome.upToDate,
       [Event.httpGet cfg.latest_url,
        Event.log ("[UPDATE] 已是最新：" ++ cfg.current)]) := by
  simp only [check_once_body, hg, hp, if_neg hv, if_pos hc]
  rfl

/-- Branch equation: a differing version was found, so the cycle resolves
the download URL, forces the digest to absent under `--insecure`, and
hands over to `_apply_update`. -/
theorem body_eq_update (env : Env) (cfg : Config) (r : HttpResp)
    (v : String) (u s : Option String)
    (hg : env.http_get cfg.latest_url = Except.ok r)
    (hp : _parse_latest_payload r.text r.contentType cfg.latest_url =
      Except.ok (v, u, s))
    (hv : v ≠ "") (hc : v ≠ cfg.current) :
    check_once_body env cfg =
      ((_apply_update env (resolved_download_url cfg.latest_url v u) cfg.target_dir
          (if cfg.insecure then none else s) cfg.restart_cmd).1,
       [Event.httpGet cfg.latest_url,
        Event.log ("[UPDATE] 发现新版本：" ++ v ++ "（当前 " ++ cfg.current ++ "）")] ++
         (_apply_update env (resolved_download_url cfg.latest_url v u) cfg.target_dir
           (if cfg.insecure then none else s) cfg.restart_cmd).2) := by
  simp only [check_once_body, hg, hp, if_neg hv, if_neg hc]
  rfl

/-- Branch equation: the `requests` dependency is missing, so the cycle
only logs. -/
theorem check_once_eq_missing (env : Env) (cfg : Config)
    (hra : env.requests_available = false) :
    check_once env cfg =
      (CycleOutcome.missingRequests,
       [Event.log "[UPDATE] 缺少依赖：requests。请先：pip install requests"]) := by
  unfold check_once
  rw [hra]
  rfl

/-- Branch equation: a cycle body that returns is passed through by the
`try` boundary unchanged. -/
theorem check_once_eq_of_body_ok (env : Env) (cfg : Config)
    (out : CycleOutcome) (evs : List Event)
    (hra : env.requests_available = true)
    (h : check_once_body env cfg = (Except.ok out, evs)) :
    check_once env cfg = (out, evs) := by
  unfold check_once
  rw [hra, h]
  rfl

/-- Branch equation: a cycle body that raises is caught at the cycle
boundary and the exception is logged. -/
theorem check_once_eq_of_body_error (env : Env) (cfg : Config)
    (e : String) (evs : List Event)
    (hra : env.requests_available = true)
    (h : check_once_body env cfg = (Except.error e, evs)) :
    check_once env cfg =
      (CycleOutcome.caught e, evs ++ [Event.log ("[UPDATE] 检测失败： " ++ e)]) := by
  unfold check_once
  rw [hra, h]
  rfl

/-- The cycle body performs its manifest fetch first, and nothing after
it fetches or sleeps. -/
theorem check_once_body_shape (env : Env) (cfg : Config) :
    ∃ rest, (check_once_body env cfg).2 = Event.httpGet cfg.latest_url :: rest ∧
      ((rest.all (fun e => !isFetchEvent e && !isSleepEvent e))) = true := by
  cases hg : env.http_get cfg.latest_url with
  | error e => exact ⟨[], by rw [body_eq_http_error env cfg e hg], rfl⟩
  | ok r =>
    cases hp : _parse_latest_payload r.text r.contentType cfg.latest_url with
    | error e => exact ⟨[], by rw [body_eq_parse_error env cfg r e hg hp], rfl⟩
    | ok t =>
      obtain ⟨v, u, s⟩ := t
      by_cases hv : v = ""
      · subst hv
        exact ⟨[Event.log "[UPDATE] latest.json/version.txt 无版本号，忽略。"],
          by rw [body_eq_no_version env cfg r u s hg hp], rfl⟩
      · by_cases hc : v = cfg.current
        · exact ⟨[Event.log ("[UPDATE] 已是最新：" ++ cfg.current)],
            by rw [body_eq_up_to_date env cfg r v u s hg hp hv hc], rfl⟩
        · refine ⟨Event.log ("[UPDATE] 发现新版本：" ++ v ++ "（当前 " ++
              cfg.current ++ "）") ::
              (_apply_update env (resolved_download_url cfg.latest_url v u)
                cfg.target_dir (if cfg.insecure then none else s) cfg.restart_cmd).2,
              ?_, ?_⟩
          · rw [body_eq_update env cfg r v u s hg hp hv hc]
            rfl
          · have happ := apply_update_events env
              (resolved_download_url cfg.latest_url v u) cfg.target_dir
              (if cfg.insecure then none else s) cfg.restart_cmd
            simp only [List.all_cons, happ, Bool.and_true]
            rfl

/-- A cycle body that returns never reports a caught exception: the
`caught` outcome arises only at the `except` boundary. -/
theorem check_once_body_ok_not_caught (env : Env) (cfg : Config) (out : CycleOutcome)
    (h : (check_once_body env cfg).1 = Except.ok out) :
    ∀ e, out ≠ CycleOutcome.caught e := by
  intro e heq
  cases hg : env.http_get cfg.latest_url with
  | error e2 =>
    rw [body_eq_http_error env cfg e2 hg] at h
    exact Except.noConfusion h
  | ok r =>
    cases hp : _parse_latest_payload r.text r.contentType cfg.latest_url with
    | error e2 =>
      rw [body_eq_parse_error env cfg r e2 hg hp] at h
      exact Except.noConfusion h
    | ok t =>
      obtain ⟨v, u, s⟩ := t
      by_cases hv : v = ""
      · subst hv
        rw [body_eq_no_version env cfg r u s hg hp] at h
        rw [heq] at h
        simp at h
      · by_cases hc : v = cfg.current
        · rw [body_eq_up_to_date env cfg r v u s hg hp hv hc] at h
          rw [heq] at h
          simp at h
        · rw [body_eq_update env cfg r v u s hg hp hv hc] at h
          rcases apply_update_ok_outcomes env _ _ _ _ out h with hdep | hvf
          · rw [heq] at hdep
            simp at hdep
          · rw [heq] at hvf
            simp [isVerifyFailedOutcome] at hvf

/-- A cycle body that raises has not terminated the process: its trace
contains no exit event. -/
theorem check_once_body_error_no_exit (env : Env) (cfg : Config) (e : String)
    (h : (check_once_body env cfg).1 = Except.error e) :
    (((check_once_body env cfg).2.all (fun ev => !isExitEvent ev))) = true := by
  cases hg : env.http_get cfg.latest_url with
  | error e2 =>
    rw [body_eq_http_error env cfg e2 hg]
    rfl
  | ok r =>
    cases hp : _parse_latest_payload r.text r.contentType cfg.latest_url with
    | error e2 =>
      rw [body_eq_parse_error env cfg r e2 hg hp]
      rfl
    | ok t =>
      obtain ⟨v, u, s⟩ := t
      by_cases hv : v = ""
      · subst hv
        rw [body_eq_no_version env cfg r u s hg hp] at h
        exact Except.noConfusion h
      · by_cases hc : v = cfg.current
        · rw [body_eq_up_to_date env cfg r v u s hg hp hv hc] at h
          exact Except.noConfusion h
        · rw [body_eq_update env cfg r v u s hg hp hv hc] at h ⊢
          simp only [List.all_append, Bool.and_eq_true]
          exact ⟨rfl, apply_update_error_no_exit env _ _ _ _ e h⟩

/-- With no expected digest, `_apply_update` performs no digest
comparison and can only deploy or raise. -/
theorem apply_update_none_props (env : Env) (u td : String) (rc : Option String) :
    (((_apply_update env u td none rc).2.all (fun e => !isHashCheckEvent e))) = true ∧
    (∀ out, (_apply_update env u td none rc).1 = Except.ok out →
      out = CycleOutcome.deployed) := by
  cases hd : env.download u with
  | error e =>
    rw [apply_update_eq_download_error env u td none rc e hd]
    exact ⟨rfl, fun out hout => Except.noConfusion hout⟩
  | ok art =>
    rw [apply_update_eq_no_sha env u td rc art hd]
    cases hz : env.zip_entries art with
    | error e =>
      rw [apply_deploy_eq_error env art td rc _ e hz]
      exact ⟨rfl, fun out hout => Except.noConfusion hout⟩
    | ok entries =>
      rw [apply_deploy_eq_ok env art td rc _ entries hz]
      constructor
      · simp only [List.all_append, Bool.and_eq_true]
        exact ⟨⟨⟨rfl, rfl⟩, all_map_writes entries _ (fun _ => rfl)⟩, rfl⟩
      · intro out hout
        injection hout with h2
        exact h2.symm

/-- One unrolling of the loop-liveness check. -/
theorem loopAlive_succ (envs : Nat → Env) (cfg : Config) (n : Nat) :
    loopAlive envs cfg (n+1) =
      (loopAlive envs cfg n && !cycleExits (check_once (envs n) cfg).1) := by
  unfold loopAlive
  rw [List.range_succ]
  simp [List.all_append]

/-- Sanitised member names contain no traversal, current-directory or
empty components. -/
theorem sanitizeParts_no_special (name : String) :
    ∀ p ∈ sanitizeParts name, p ≠ ".." ∧ p ≠ "." ∧ p ≠ "" := by
  intro p hp
  unfold sanitizeParts at hp
  rw [List.mem_filter] at hp
  have h2 := hp.2
  simp only [Bool.and_eq_true, bne_iff_ne, ne_eq, decide_eq_true_eq] at h2
  refine ⟨?_, ?_, ?_⟩ <;> tauto

/-- Resolving a path whose appended components contain no traversal,
current-directory or empty entries appends them verbatim. -/
theorem resolveParts_append_plain (a b : List String)
    (hb : ∀ p ∈ b, p ≠ ".." ∧ p ≠ "." ∧ p ≠ "") :
    resolveParts (a ++ b) = resolveParts a ++ b := by
  unfold resolveParts
  rw [List.foldl_append]
  generalize (List.foldl _ [] a) = acc
  induction b generalizing acc with
  | nil => simp
  | cons p ps ih =>
    have hp := hb p (by simp)
    have hps : ∀ q ∈ ps, q ≠ ".." ∧ q ≠ "." ∧ q ≠ "" := by
      intro q hq
      exact hb q (by simp [hq])
    simp only [List.foldl_cons]
    rw [if_neg hp.1]
    have hcond : (p = "." || p = "") = false := by
      simp [hp.2.1, hp.2.2]
    rw [hcond]
    simp only [Bool.false_eq_true, if_false]
    rw [ih hps]
    simp

/-- Every update attempt creates its staging directory. -/
theorem apply_update_has_mkdtemp (env : Env) (u td : String)
    (sha rc : Option String) :
    Event.mkdtempDir tmpdir ∈ (_apply_update env u td sha rc).2 := by
  cases hd : env.download u with
  | error e =>
    rw [apply_update_eq_download_error env u td sha rc e hd]
    simp
  | ok art =>
    have hdep : ∀ prev : List Event, Event.mkdtempDir tmpdir ∈ prev →
        Event.mkdtempDir tmpdir ∈ (_apply_update_deploy env art td rc prev).2 := by
      intro prev hprev
      cases hz : env.zip_entries art with
      | error e =>
        rw [apply_deploy_eq_error env art td rc prev e hz]
        simp [hprev]
      | ok entries =>
        rw [apply_deploy_eq_ok env art td rc prev entries hz]
        simp [hprev]
    cases sha with
    | none =>
      rw [apply_update_eq_no_sha env u td rc art hd]
      exact hdep _ (by simp)
    | some expect =>
      by_cases hmm : pyLower (env.sha256_file art) = pyLower expect
      · rw [apply_update_eq_match env u td rc art expect hd hmm]
        exact hdep _ (by simp)
      · rw [apply_update_eq_mismatch env u td rc art expect hd hmm]
        simp

/-- A check cycle never sleeps: the pause belongs to the polling loop
alone. -/
theorem check_once_no_sleep (env : Env) (cfg : Config) :
    (((check_once env cfg).2.all (fun ev => !isSleepEvent ev))) = true := by
  cases hra : env.requests_available with
  | false =>
    rw [check_once_eq_missing env cfg hra]
    rfl
  | true =>
    obtain ⟨rest, hshape, hrest⟩ := check_once_body_shape env cfg
    have hall : (((check_once_body env cfg).2.all (fun ev => !isSleepEvent ev))) = true := by
      rw [hshape]
      simp only [List.all_cons]
      have hr : ((rest.all (fun ev => !isSleepEvent ev))) = true := by
        refine List.all_eq_true.mpr ?_
        intro x hx
        have h := List.all_eq_true.mp hrest x hx
        simp only [Bool.and_eq_true] at h
        exact h.2
      rw [hr]
      rfl
    rcases hres : check_once_body env cfg with ⟨res, evs⟩
    cases res with
    | ok out =>
      rw [check_once_eq_of_body_ok env cfg out evs hra hres]
      have h2 := hall
      rw [hres] at h2
      exact h2
    | error e =>
      rw [check_once_eq_of_body_error env cfg e evs hra hres]
      have h2 := hall
      rw [hres] at h2
      simp only [List.all_append, Bool.and_eq_true]
      exact ⟨h2, rfl⟩

/-- Under `--insecure` the expected digest is forced to absent, so no
cycle ever compares digests or aborts on verification. -/
theorem check_once_insecure_props (env : Env) (cfg : Config)
    (hi : cfg.insecure = true) :
    (((check_once env cfg).2.all (fun e => !isHashCheckEvent e))) = true ∧
    isVerifyFailedOutcome (check_once env cfg).1 = false := by
  cases hra : env.requests_available with
  | false =>
    rw [check_once_eq_missing env cfg hra]
    exact ⟨rfl, rfl⟩
  | true =>
    cases hg : env.http_get cfg.latest_url with
    | error e =>
      rw [check_once_eq_of_body_error env cfg e _ hra (body_eq_http_error env cfg e hg)]
      exact ⟨rfl, rfl⟩
    | ok r =>
      cases hp : _parse_latest_payload r.text r.contentType cfg.latest_url with
      | error e =>
        rw [check_once_eq_of_body_error env cfg e _ hra
          (body_eq_parse_error env cfg r e hg hp)]
        exact ⟨rfl, rfl⟩
      | ok t =>
        obtain ⟨v, u, s⟩ := t
        by_cases hv : v = ""
        · subst hv
          rw [check_once_eq_of_body_ok env cfg _ _ hra
            (body_eq_no_version env cfg r u s hg hp)]
          exact ⟨rfl, rfl⟩
        · by_cases hc : v = cfg.current
          · rw [check_once_eq_of_body_ok env cfg _ _ hra
              (body_eq_up_to_date env cfg r v u s hg hp hv hc)]
            exact ⟨rfl, rfl⟩
          · have hb := body_eq_update env cfg r v u s hg hp hv hc
            have hsha : (if cfg.insecure then none else s) = (none : Option String) := by
              simp [hi]
            rw [hsha] at hb
            obtain ⟨hall, hok⟩ := apply_update_none_props env
              (resolved_download_url cfg.latest_url v u) cfg.target_dir cfg.restart_cmd
            cases happ : (_apply_update env (resolved_download_url cfg.latest_url v u)
                cfg.target_dir none cfg.restart_cmd).1 with
            | error e =>
              rw [happ] at hb
              rw [check_once_eq_of_body_error env cfg e _ hra hb]
              constructor
              · simp only [List.all_append, Bool.and_eq_true]
                exact ⟨⟨rfl, hall⟩, rfl⟩
              · rfl
            | ok out =>
              obtain rfl := hok out happ
              rw [happ] at hb
              rw [check_once_eq_of_body_ok env cfg _ _ hra hb]
              constructor
              · simp only [List.all_append, Bool.and_eq_true]
                exact ⟨rfl, hall⟩
              · rfl

/-! ## Claims -/

/-- Claim C1, as frozen, is wrong about `skip_verification = true`: the
claim says deployment proceeds only if `skip_verification` is false and
the digests match, but with `--insecure` the code nulls the expected
digest and deploys even though a mismatching hash was supplied.  Here
the pipeline deploys while `insecure` is true and the computed digest
`bb` differs from the expected `aa`, refuting the claimed equivalence at
a concrete input. -/
theorem claim1_counterexample :
    (check_once envMismatch cfgInsecure).1 = CycleOutcome.deployed ∧
    ¬ ((check_once envMismatch cfgInsecure).1 = CycleOutcome.deployed ↔
        (cfgInsecure.insecure = false ∧
          pyLower (envMismatch.sha256_file "artifact1") = pyLower "aa")) :=
  ⟨by decide, by decide⟩

/-- Claim C1 (amended): for every update attempt with a downloaded
artifact and an expected hash, deployment proceeds iff
`skip_verification` is true or the computed SHA-256 digest equals the
expected digest case-insensitively; when `skip_verification` is false
and the digest mismatches, deployment is aborted as the verification
failure, and no deployment action (directory creation, file write,
helper launch, process exit) occurs, leaving the target directory
unmodified and the staged artifact in place. -/
theorem claim1_verification_gate (env : Env) (cfg : Config) (r : HttpResp)
    (v : String) (u : Option String) (expect art : String) (entries : List String)
    (hra : env.requests_available = true)
    (hg : env.http_get cfg.latest_url = Except.ok r)
    (hp : _parse_latest_payload r.text r.contentType cfg.latest_url =
      Except.ok (v, u, some expect))
    (hv : v ≠ "") (hc : v ≠ cfg.current)
    (hd : env.download (resolved_download_url cfg.latest_url v u) = Except.ok art)
    (hz : env.zip_entries art = Except.ok entries) :
    ((check_once env cfg).1 = CycleOutcome.deployed ↔
      (cfg.insecure = true ∨ pyLower (env.sha256_file art) = pyLower expect)) ∧
    (cfg.insecure = false → pyLower (env.sha256_file art) ≠ pyLower expect →
      (check_once env cfg).1 =
        CycleOutcome.verifyFailed expect (env.sha256_file art) ∧
      (((check_once env cfg).2.filter (fun e => isDeployEvent e))) = []) := by
  have hb := body_eq_update env cfg r v u (some expect) hg hp hv hc
  cases hi : cfg.insecure with
  | true =>
    have hsha : (if cfg.insecure then none else some expect) =
        (none : Option String) := by simp [hi]
    rw [hsha] at hb
    rw [apply_update_eq_no_sha env _ cfg.target_dir cfg.restart_cmd art hd,
      apply_deploy_eq_ok env art cfg.target_dir cfg.restart_cmd _ entries hz] at hb
    rw [check_once_eq_of_body_ok env cfg CycleOutcome.deployed _ hra hb]
    constructor
    · exact iff_of_true rfl (Or.inl rfl)
    · intro hfalse
      exact Bool.noConfusion hfalse
  | false =>
    have hsha : (if cfg.insecure then none else some expect) = some expect := by
      simp [hi]
    rw [hsha] at hb
    by_cases hmm : pyLower (env.sha256_file art) = pyLower expect
    · rw [apply_update_eq_match env _ cfg.target_dir cfg.restart_cmd art expect hd hmm,
        apply_deploy_eq_ok env art cfg.target_dir cfg.restart_cmd _ entries hz] at hb
      rw [check_once_eq_of_body_ok env cfg CycleOutcome.deployed _ hra hb]
      constructor
      · exact iff_of_true rfl (Or.inr hmm)
      · intro _ hmm2
        exact absurd hmm hmm2
    · rw [apply_update_eq_mismatch env _ cfg.target_dir cfg.restart_cmd art expect
        hd hmm] at hb
      rw [check_once_eq_of_body_ok env cfg
        (CycleOutcome.verifyFailed expect (env.sha256_file art)) _ hra hb]
      constructor
      · refine iff_of_false (by simp) ?_
        rintro (h1 | h2)
        · exact Bool.noConfusion h1
        · exact hmm h2
      · intro _ _
        exact ⟨rfl, rfl⟩

/-- Claim C1 witness: with verification enabled and a case-insensitively
matching digest (`AA` against expected `aa`), the equivalence holds and
the pipeline deploys. -/
theorem claim1_verification_gate_witness :
    ((check_once envMatch cfgSecure).1 = CycleOutcome.deployed ↔
      (cfgSecure.insecure = true ∨
        pyLower (envMatch.sha256_file "artifact1") = pyLower "aa")) ∧
    (check_once envMatch cfgSecure).1 = CycleOutcome.deployed :=
  ⟨(claim1_verification_gate envMatch cfgSecure
      (HttpResp.mk
        "\x7b\"version\":\"2.0.0\",\"url\":\"https://h/a.zip\",\"sha256\":\"aa\"\x7d"
        "application/json")
      "2.0.0" (some "https://h/a.zip") "aa" "artifact1" ["app.py"]
      rfl rfl rfl (by decide) (by decide) rfl rfl).1,
   by decide⟩

/-- Claim C2 evaluation at the failing input: an archive whose member
list contains the traversal entry `../evil.txt` is extracted without any
`ExtractionError` — CPython `zipfile` silently drops the `..` component
and writes `evil.txt` inside the staging extraction directory, and the
cycle deploys.  The final conjunct proves the safety half in general:
every sanitised member path still resolves inside the staging extraction
directory, for any member name. -/
theorem claim2_traversal_entry_extracted :
    (check_once envTraversal cfgSecure).1 = CycleOutcome.deployed ∧
    Event.writeFile "gh_update_tmp\\extracted\\evil.txt" ∈
      (check_once envTraversal cfgSecure).2 ∧
    (∀ name : String, [tmpdir, "extracted"] <+:
      resolveParts ([tmpdir, "extracted"] ++ sanitizeParts name)) := by
  refine ⟨by decide, by decide, ?_⟩
  intro name
  rw [resolveParts_append_plain [tmpdir, "extracted"] (sanitizeParts name)
    (sanitizeParts_no_special name)]
  have hres : resolveParts [tmpdir, "extracted"] = [tmpdir, "extracted"] := by decide
  rw [hres]
  exact ⟨sanitizeParts name, rfl⟩

/-- Claim C3, as frozen, is wrong about non-string manifest fields: the
claim says `download_url` is absent when the field is not a string, but
the code coerces every field with `str()`.  For the body whose `url`
field is the JSON literal `true`, parsing yields the present download
URL `"True"` (Python `str(True)`), not absence. -/
theorem claim3_counterexample :
    _parse_latest_payload "\x7b\"version\":\"1.2.3\",\"url\":true\x7d"
        "application/json" "" =
      Except.ok ("1.2.3", some "True", none) ∧
    (some "True" : Option String) ≠ none :=
  ⟨rfl, by simp⟩

/-- Claim C3 (amended): for every manifest body, the structured branch
is taken exactly when the declared content type contains
`application/json` case-insensitively or the trimmed body starts with an
opening brace (the code tests `startswith`, not decodability — forced by
bodies such as a brace-initial non-JSON body, which the original "every
other body" clause would wrongly send to the bare-version branch).  In
the structured branch, when the body decodes to a JSON object, parsing
extracts the version as the stripped `str()` coercion of the `version`
field (empty when missing), and `download_url` / `sha256` are each
absent exactly when the corresponding field is missing or its `str()`
coercion strips to empty — a non-string field is coerced to its Python
textual form rather than dropped; when the body decodes to a value that
is not an object, parsing raises (the `.get` lookup fails), rather than
extracting anything.  For every body outside the structured branch, the
extracted version equals the trimmed body and both optional fields are
absent. -/
theorem claim3_manifest_parsing (body ct lu : String) :
    ((containsSub (pyLower ct) "application/json" ||
        strStartsWith (pyStrip body) "\x7b") = false →
      _parse_latest_payload body ct lu = Except.ok (pyStrip body, none, none)) ∧
    (∀ fields, json_loads body = Except.ok (JVal.jobj fields) →
      (containsSub (pyLower ct) "application/json" ||
        strStartsWith (pyStrip body) "\x7b") = true →
      _parse_latest_payload body ct lu =
        Except.ok (fieldAsStr fields "version",
                   orNone (fieldAsStr fields "url"),
                   orNone (fieldAsStr fields "sha256")) ∧
      (orNone (fieldAsStr fields "url") = none ↔
        (dictGet fields "url" = none ∨ fieldAsStr fields "url" = "")) ∧
      (orNone (fieldAsStr fields "sha256") = none ↔
        (dictGet fields "sha256" = none ∨ fieldAsStr fields "sha256" = ""))) ∧
    (∀ v, json_loads body = Except.ok v →
      (containsSub (pyLower ct) "application/json" ||
        strStartsWith (pyStrip body) "\x7b") = true →
      (∀ fields, v ≠ JVal.jobj fields) →
      _parse_latest_payload body ct lu = Except.error "AttributeError") := by
  have habsent : ∀ fields k, orNone (fieldAsStr fields k) = none ↔
      (dictGet fields k = none ∨ fieldAsStr fields k = "") := by
    intro fields k
    rw [orNone_eq_none]
    constructor
    · exact fun h => Or.inr h
    · rintro (h | h)
      · unfold fieldAsStr
        rw [h]
        rfl
      · exact h
  refine ⟨?_, ?_, ?_⟩
  · intro hgate
    simp only [_parse_latest_payload, hgate]
    rfl
  · intro fields hl hgate
    refine ⟨?_, habsent fields "url", habsent fields "sha256"⟩
    simp only [_parse_latest_payload, hgate, hl]
    rfl
  · intro v hl hgate hnotobj
    cases v with
    | jobj fields => exact absurd rfl (hnotobj fields)
    | jnull =>
      simp only [_parse_latest_payload, hgate, hl]
      rfl
    | jbool b =>
      simp only [_parse_latest_payload, hgate, hl]
      rfl
    | jint n =>
      simp only [_parse_latest_payload, hgate, hl]
      rfl
    | jstr s2 =>
      simp only [_parse_latest_payload, hgate, hl]
      rfl
    | jarr xs =>
      simp only [_parse_latest_payload, hgate, hl]
      rfl

/-- Claim C3 witness, one instance per branch: a structured body with an
upper-case content type, an integer `version` field and an empty
`sha256` field parses to the coerced version `"9"` with both optional
fields absent; a declared-JSON body decoding to an array raises; a plain
text body outside the structured branch yields its trimmed self. -/
theorem claim3_manifest_parsing_witness :
    json_loads "\x7b\"version\":9,\"sha256\":\"\"\x7d" =
      Except.ok (JVal.jobj [("version", JVal.jint 9), ("sha256", JVal.jstr "")]) ∧
    _parse_latest_payload "\x7b\"version\":9,\"sha256\":\"\"\x7d"
        "Application/JSON" "" = Except.ok ("9", none, none) ∧
    orNone (fieldAsStr [("version", JVal.jint 9), ("sha256", JVal.jstr "")]
      "sha256") = none ∧
    _parse_latest_payload "[1]" "application/json" "" =
      Except.error "AttributeError" ∧
    _parse_latest_payload "  2.0.1\n" "text/plain" "" =
      Except.ok ("2.0.1", none, none) :=
  ⟨rfl,
   by
    have h := (claim3_manifest_parsing "\x7b\"version\":9,\"sha256\":\"\"\x7d"
      "Application/JSON" "").2.1
      [("version", JVal.jint 9), ("sha256", JVal.jstr "")] rfl rfl
    exact h.1.trans (by rfl),
   rfl,
   (claim3_manifest_parsing "[1]" "application/json" "").2.2
     (JVal.jarr [JVal.jint 1]) rfl rfl
     (fun fields h => JVal.noConfusion h),
   (claim3_manifest_parsing "  2.0.1\n" "text/plain" "").1 rfl⟩

/-- Claim C4: given a fetched manifest with a non-empty version, the
gate reports "already latest" iff the remote version string is
byte-for-byte equal to the current version; any inequality — including a
lexically older remote version — proceeds to the update attempt, which
begins by creating the staging directory. -/
theorem claim4_version_gate (env : Env) (cfg : Config) (r : HttpResp)
    (v : String) (u s : Option String)
    (hra : env.requests_available = true)
    (hg : env.http_get cfg.latest_url = Except.ok r)
    (hp : _parse_latest_payload r.text r.contentType cfg.latest_url =
      Except.ok (v, u, s))
    (hv : v ≠ "") :
    ((check_once env cfg).1 = CycleOutcome.upToDate ↔ v = cfg.current) ∧
    (v ≠ cfg.current → Event.mkdtempDir tmpdir ∈ (check_once env cfg).2) := by
  by_cases hc : v = cfg.current
  · rw [check_once_eq_of_body_ok env cfg _ _ hra
      (body_eq_up_to_date env cfg r v u s hg hp hv hc)]
    exact ⟨iff_of_true rfl hc, fun hne => absurd hc hne⟩
  · have hb := body_eq_update env cfg r v u s hg hp hv hc
    have hmk := apply_update_has_mkdtemp env
      (resolved_download_url cfg.latest_url v u) cfg.target_dir
      (if cfg.insecure then none else s) cfg.restart_cmd
    cases happ : (_apply_update env (resolved_download_url cfg.latest_url v u)
        cfg.target_dir (if cfg.insecure then none else s) cfg.restart_cmd).1 with
    | error e =>
      rw [happ] at hb
      rw [check_once_eq_of_body_error env cfg e _ hra hb]
      constructor
      · exact iff_of_false (by simp) hc
      · intro _
        exact List.mem_append.mpr (Or.inl (List.mem_append.mpr (Or.inr hmk)))
    | ok out =>
      rw [happ] at hb
      rw [check_once_eq_of_body_ok env cfg out _ hra hb]
      constructor
      · refine iff_of_false ?_ hc
        intro hout
        have hout2 : out = CycleOutcome.upToDate := hout
        rcases apply_update_ok_outcomes env _ _ _ _ out happ with h1 | h2
        · rw [hout2] at h1
          exact CycleOutcome.noConfusion h1
        · rw [hout2] at h2
          exact Bool.noConfusion h2
      · intro _
        exact List.mem_append.mpr (Or.inr hmk)

/-- Claim C4 witness: a lexically older remote version `0.9.0` against
current `1.0.0` is treated as an update and reaches staging creation,
while an identical remote version reports "already latest". -/
theorem claim4_version_gate_witness :
    ((check_once envPlainOld cfgSecure).1 = CycleOutcome.upToDate ↔
      ("0.9.0" : String) = "1.0.0") ∧
    Event.mkdtempDir tmpdir ∈ (check_once envPlainOld cfgSecure).2 ∧
    ((check_once envPlainSame cfgSecure).1 = CycleOutcome.upToDate ↔
      ("1.0.0" : String) = "1.0.0") :=
  ⟨(claim4_version_gate envPlainOld cfgSecure (HttpResp.mk "0.9.0\n" "text/plain")
      "0.9.0" none none rfl rfl rfl (by decide)).1,
   (claim4_version_gate envPlainOld cfgSecure (HttpResp.mk "0.9.0\n" "text/plain")
      "0.9.0" none none rfl rfl rfl (by decide)).2 (by decide),
   (claim4_version_gate envPlainSame cfgSecure (HttpResp.mk "1.0.0" "text/plain")
      "1.0.0" none none rfl rfl rfl (by decide)).1⟩

/-- Claim C5: with `skip_verification` set, no digest comparison is ever
performed and no cycle aborts on verification, whatever the environment
supplies; and whenever the pipeline reaches a successful download and a
readable archive, it deploys — even though the manifest may have
supplied a hash, matching or not. -/
theorem claim5_insecure_skips_verification (env : Env) (cfg : Config)
    (hi : cfg.insecure = true) :
    (((check_once env cfg).2.all (fun e => !isHashCheckEvent e))) = true ∧
    isVerifyFailedOutcome (check_once env cfg).1 = false ∧
    (∀ r v u s art entries,
      env.requests_available = true →
      env.http_get cfg.latest_url = Except.ok r →
      _parse_latest_payload r.text r.contentType cfg.latest_url =
        Except.ok (v, u, s) →
      v ≠ "" → v ≠ cfg.current →
      env.download (resolved_download_url cfg.latest_url v u) = Except.ok art →
      env.zip_entries art = Except.ok entries →
      (check_once env cfg).1 = CycleOutcome.deployed) := by
  obtain ⟨h1, h2⟩ := check_once_insecure_props env cfg hi
  refine ⟨h1, h2, ?_⟩
  intro r v u s art entries hra hg hp hv hc hd hz
  have hb := body_eq_update env cfg r v u s hg hp hv hc
  have hsha : (if cfg.insecure then none else s) = (none : Option String) := by
    simp [hi]
  rw [hsha] at hb
  rw [apply_update_eq_no_sha env _ cfg.target_dir cfg.restart_cmd art hd,
    apply_deploy_eq_ok env art cfg.target_dir cfg.restart_cmd _ entries hz] at hb
  rw [check_once_eq_of_body_ok env cfg CycleOutcome.deployed _ hra hb]

/-- Claim C5 witness: under `--insecure`, the fixture whose manifest
supplies the expected digest `aa` while the artifact hashes to `bb`
performs no digest comparison and still deploys. -/
theorem claim5_insecure_skips_verification_witness :
    (((check_once envMismatch cfgInsecure).2.all
      (fun e => !isHashCheckEvent e))) = true ∧
    isVerifyFailedOutcome (check_once envMismatch cfgInsecure).1 = false ∧
    (check_once envMismatch cfgInsecure).1 = CycleOutcome.deployed :=
  ⟨(claim5_insecure_skips_verification envMismatch cfgInsecure rfl).1,
   (claim5_insecure_skips_verification envMismatch cfgInsecure rfl).2.1,
   (claim5_insecure_skips_verification envMismatch cfgInsecure rfl).2.2
     (HttpResp.mk
       "\x7b\"version\":\"2.0.0\",\"url\":\"https://h/a.zip\",\"sha256\":\"aa\"\x7d"
       "application/json")
     "2.0.0" (some "https://h/a.zip") (some "aa") "artifact1" ["app.py"]
     rfl rfl rfl (by decide) (by decide) rfl rfl⟩

/-- Claim C6: when the manifest omits a download URL, the fallback is
built from the literal scheme `https://`, the manifest URL's host, all
but the last slash-separated segment of its path, then
`/releases/fisher_v<version>.zip` with the fixed artifact prefix
`fisher`. -/
theorem claim6_fallback_url (latest_url V scheme host path : String)
    (hu : urlparse latest_url = UrlParts.mk scheme host path) :
    _default_zip_url_from_latest latest_url V =
      "https://" ++ host ++
        String.mk (joinSlash ((splitSlash path.data).dropLast)) ++
        "/releases/fisher_v" ++ V ++ ".zip" := by
  unfold _default_zip_url_from_latest
  rw [hu]

/-- Claim C6 witness: the spec's concrete example, evaluated. -/
theorem claim6_fallback_url_witness :
    urlparse "https://raw.example.com/org/repo/main/latest.json" =
      UrlParts.mk "https" "raw.example.com" "/org/repo/main/latest.json" ∧
    _default_zip_url_from_latest
        "https://raw.example.com/org/repo/main/latest.json" "2.0.0" =
      "https://raw.example.com/org/repo/main/releases/fisher_v2.0.0.zip" :=
  ⟨rfl,
   by
    rw [claim6_fallback_url "https://raw.example.com/org/repo/main/latest.json"
      "2.0.0" "https" "raw.example.com" "/org/repo/main/latest.json" rfl]
    rfl⟩

/-- Claim C7: in continuous polling, an exception raised inside a check
cycle is caught at the cycle boundary and logged as the last event, the
cycle performed exactly one manifest fetch (no retry), the process never
exited during the cycle, and the loop stays alive: the next cycle
exists, separated from this one by exactly the sleep pause. -/
theorem claim7_cycle_error_containment (envs : Nat → Env) (cfg : Config)
    (interval : Int) (n : Nat) (e : String)
    (hra : (envs n).requests_available = true)
    (halive : loopAlive envs cfg n = true)
    (herr : (check_once_body (envs n) cfg).1 = Except.error e) :
    (check_once (envs n) cfg).1 = CycleOutcome.caught e ∧
    (check_once (envs n) cfg).2.getLast? =
      some (Event.log ("[UPDATE] 检测失败： " ++ e)) ∧
    ((check_once (envs n) cfg).2.countP (fun ev => isFetchEvent ev)) = 1 ∧
    (((check_once (envs n) cfg).2.all (fun ev => !isExitEvent ev))) = true ∧
    loop_cycle envs cfg n = some (CycleOutcome.caught e) ∧
    (loop_cycle envs cfg (n+1)).isSome = true ∧
    loop_events envs cfg interval (n+1) =
      loop_events envs cfg interval n ++ (check_once (envs n) cfg).2 ++
        [Event.sleep (loopPause interval)] := by
  have hbody : check_once_body (envs n) cfg =
      (Except.error e, (check_once_body (envs n) cfg).2) := by
    rw [← herr]
  have hco := check_once_eq_of_body_error (envs n) cfg e _ hra hbody
  obtain ⟨rest, hshape, hrest⟩ := check_once_body_shape (envs n) cfg
  have hout : (check_once (envs n) cfg).1 = CycleOutcome.caught e := by
    rw [hco]
  have hnoexit : (((check_once (envs n) cfg).2.all (fun ev => !isExitEvent ev))) = true := by
    rw [hco]
    simp only [List.all_append, Bool.and_eq_true]
    exact ⟨check_once_body_error_no_exit (envs n) cfg e herr, rfl⟩
  have hcycle : loop_cycle envs cfg n = some (CycleOutcome.caught e) := by
    unfold loop_cycle
    rw [halive]
    simp [hout]
  have halive2 : loopAlive envs cfg (n+1) = true := by
    rw [loopAlive_succ, halive, hout]
    rfl
  refine ⟨hout, ?_, ?_, hnoexit, hcycle, ?_, ?_⟩
  · rw [hco]
    exact List.getLast?_concat _
  · have h0 : rest.countP (fun ev => isFetchEvent ev) = 0 := by
      rw [List.countP_eq_zero]
      intro a ha
      have h := List.all_eq_true.mp hrest a ha
      simp only [Bool.and_eq_true, Bool.not_eq_true'] at h
      simp [h.1]
    rw [hco, List.countP_append, hshape, List.countP_cons, h0]
    rfl
  · unfold loop_cycle
    rw [halive2]
    simp
  · simp only [loop_events]
    rw [halive]
    simp only [if_true, eq_self_iff_true]
    rw [hout]
    have hex : cycleExits (CycleOutcome.caught e) = false := rfl
    simp [cycleExits, List.append_assoc]

/-- Claim C7 witness: with a manifest fetch that always raises `boom`,
cycle 0 is caught and logged, fetched exactly once, did not exit, and
cycle 1 follows after the sleep pause. -/
theorem claim7_cycle_error_containment_witness :
    (check_once (envsBoom 0) cfgSecure).1 = CycleOutcome.caught "boom" ∧
    (check_once (envsBoom 0) cfgSecure).2.getLast? =
      some (Event.log ("[UPDATE] 检测失败： " ++ "boom")) ∧
    ((check_once (envsBoom 0) cfgSecure).2.countP (fun ev => isFetchEvent ev)) = 1 ∧
    (((check_once (envsBoom 0) cfgSecure).2.all (fun ev => !isExitEvent ev))) = true ∧
    loop_cycle envsBoom cfgSecure 0 = some (CycleOutcome.caught "boom") ∧
    (loop_cycle envsBoom cfgSecure 1).isSome = true ∧
    loop_events envsBoom cfgSecure 60 1 =
      loop_events envsBoom cfgSecure 60 0 ++ (check_once (envsBoom 0) cfgSecure).2 ++
        [Event.sleep (loopPause 60)] :=
  claim7_cycle_error_containment envsBoom cfgSecure 60 0 "boom" rfl rfl rfl

/-- Claim C8: when the resolved target directory does not exist, the
process exits with status 1 after a single diagnostic log line, and the
trace contains no network activity at all. -/
theorem claim8_missing_target_dir (os : OsEnv) (envs : Nat → Env) (args : Args)
    (fuel : Nat) (h : os.isdir (os.abspath args.target_dir) = false) :
    main_run os envs args fuel =
      (some 1,
       [Event.log ("[UPDATE] 目标目录不存在：" ++ os.abspath args.target_dir)]) ∧
    (((main_run os envs args fuel).2.all (fun e => !isFetchEvent e))) = true := by
  have hm : main_run os envs args fuel =
      (some 1,
       [Event.log ("[UPDATE] 目标目录不存在：" ++ os.abspath args.target_dir)]) := by
    simp [main_run, h]
  exact ⟨hm, by rw [hm]; rfl⟩

/-- Claim C8 witness: a fixture whose target directory never exists
exits with status 1, logging the diagnostic, without fetching. -/
theorem claim8_missing_target_dir_witness :
    main_run osMissing envsBoom argsFixture 3 =
      (some 1,
       [Event.log ("[UPDATE] 目标目录不存在：" ++
         osMissing.abspath argsFixture.target_dir)]) ∧
    (((main_run osMissing envsBoom argsFixture 3).2.all
      (fun e => !isFetchEvent e))) = true :=
  claim8_missing_target_dir osMissing envsBoom argsFixture 3 rfl

/-- Claim C9: every pause the polling loop takes equals
`max 5 interval` seconds, whatever interval was requested. -/
theorem claim9_poll_floor (envs : Nat → Env) (cfg : Config) (interval : Int)
    (n : Nat) (s : Int)
    (hm : Event.sleep s ∈ loop_events envs cfg interval n) :
    s = max 5 interval := by
  induction n with
  | zero => simp [loop_events] at hm
  | succ k ih =>
    simp only [loop_events] at hm
    rcases List.mem_append.mp hm with h1 | h2
    · exact ih h1
    · cases ha : loopAlive envs cfg k with
      | false =>
        rw [ha] at h2
        simp at h2
      | true =>
        rw [ha] at h2
        simp only [if_true, eq_self_iff_true] at h2
        rcases List.mem_append.mp h2 with h3 | h4
        · have hns := check_once_no_sleep (envs k) cfg
          have := List.all_eq_true.mp hns _ h3
          simp [isSleepEvent] at this
        · cases he : cycleExits (check_once (envs k) cfg).1 with
          | true =>
            rw [he] at h4
            simp at h4
          | false =>
            rw [he] at h4
            simp at h4
            rw [h4]
            rfl

/-- Claim C9 witness: a requested interval of 2 seconds yields a
5-second pause in the loop trace. -/
theorem claim9_poll_floor_witness :
    Event.sleep 5 ∈ loop_events envsBoom cfgSecure 2 1 ∧ (5 : Int) = max 5 2 :=
  ⟨by decide, claim9_poll_floor envsBoom cfgSecure 2 1 5 (by decide)⟩

/-- Claim C10: a cycle whose extracted remote version is empty or equal
to the current version returns after the fetch with only log output: no
download, no staging directory, no filesystem write, no process exit. -/
theorem claim10_no_update_frame (env : Env) (cfg : Config) (r : HttpResp)
    (v : String) (u s : Option String)
    (hra : env.requests_available = true)
    (hg : env.http_get cfg.latest_url = Except.ok r)
    (hp : _parse_latest_payload r.text r.contentType cfg.latest_url =
      Except.ok (v, u, s))
    (h : v = "" ∨ v = cfg.current) :
    (((check_once env cfg).2.all (fun e => isPureEvent e))) = true ∧
    (check_once env cfg).1 =
      (if v = "" then CycleOutcome.noVersion else CycleOutcome.upToDate) := by
  by_cases hv : v = ""
  · subst hv
    rw [check_once_eq_of_body_ok env cfg _ _ hra
      (body_eq_no_version env cfg r u s hg hp)]
    exact ⟨rfl, by rw [if_pos rfl]⟩
  · have hc : v = cfg.current := by
      rcases h with h1 | h2
      · exact absurd h1 hv
      · exact h2
    rw [check_once_eq_of_body_ok env cfg _ _ hra
      (body_eq_up_to_date env cfg r v u s hg hp hv hc)]
    exact ⟨rfl, by rw [if_neg hv]⟩

/-- Claim C10 witness: a manifest equal to the current version produces
a cycle of pure events ending "already latest". -/
theorem claim10_no_update_frame_witness :
    (((check_once envPlainSame cfgSecure).2.all (fun e => isPureEvent e))) = true ∧
    (check_once envPlainSame cfgSecure).1 =
      (if ("1.0.0" : String) = "" then CycleOutcome.noVersion
       else CycleOutcome.upToDate) :=
  claim10_no_update_frame envPlainSame cfgSecure (HttpResp.mk "1.0.0" "text/plain")
    "1.0.0" none none rfl rfl rfl (Or.inr rfl)
